import Mathlib

/-!
Verification of the ASICS store product-page crawler (`asics_scraper.py`).

The definitions below are a shallow embedding of the crawler's logic:
pure functions mirror the Python functions statement by statement, the
per-URL retry loop of `scrape_urls` becomes a fuel-indexed recursion
(fuel = `max_retries - retry_count`, exactly the loop guard), and the
nondeterminism of the network is made explicit as an oracle giving the
outcome of each fetch attempt.  Sleeps are modelled by recording the
window each jittered delay is sampled from.
-/

set_option maxHeartbeats 1000000

namespace Asics

/-- Characters removed by Python's `str.strip()` (ASCII whitespace). -/
def isPySpace (c : Char) : Bool :=
  c = ' ' || c = '\t' || c = '\n' || c = '\r' || c = '\x0b' || c = '\x0c'

/-- Python `s.strip()`: drop whitespace from both ends. -/
def pyStrip (s : String) : String :=
  String.mk (((s.toList.dropWhile isPySpace).reverse.dropWhile isPySpace).reverse)

/-- Python `s.startswith(p)`. -/
def pyStartsWith (s p : String) : Bool :=
  p.toList.isPrefixOf s.toList

/-- Python substring containment `pat in s`. -/
def containsSub (s pat : List Char) : Bool :=
  match s with
  | [] => pat.isEmpty
  | c :: cs => pat.isPrefixOf (c :: cs) || containsSub cs pat

/-- Python `s.replace(pat, rep)` (all non-overlapping occurrences, left to
right), written with an explicit fuel so that the recursion is structural.
Every step consumes at least one character of the input when `pat` is
nonempty, so fuel `s.length` is enough. -/
def replaceFuel (pat rep : List Char) : Nat → List Char → List Char
  | 0, s => s
  | _ + 1, [] => []
  | fuel + 1, c :: cs =>
    if !pat.isEmpty && pat.isPrefixOf (c :: cs) then
      rep ++ replaceFuel pat rep fuel ((c :: cs).drop pat.length)
    else
      c :: replaceFuel pat rep fuel cs

/-- Python `s.replace(pat, rep)` for a nonempty pattern. -/
def pyReplace (s pat rep : String) : String :=
  String.mk (replaceFuel pat.toList rep.toList s.toList.length s.toList)

/-- Python `s.lower()` restricted to the ASCII range (the embedded checks
only ever look for the digit string "404", which lowering never affects). -/
def pyLower (s : String) : String :=
  String.mk (s.toList.map Char.toLower)

/-- One row of the result table: the dict built at the top of the per-URL
loop of `scrape_urls` (source lines 114-124). -/
structure Record where
  url : String
  status : String
  title : String
  product_id : String
  price : String
  availability : String
  color : String
  category : String
  timestamp : String
deriving DecidableEq

/-- The scraping method (`self.method` after `__init__`). -/
inductive Method where
  | selenium
  | requests
deriving DecidableEq

/-- The per-call arguments of `scrape_urls` (delay_range, timeout,
max_retries). -/
structure Config where
  delayLo : ℚ
  delayHi : ℚ
  timeout : ℚ
  maxRetries : Nat
deriving DecidableEq

/-- Initial status of a record: `'エラー' if self.method == 'requests' else
'ERROR'` (source line 116). -/
def defaultStatus : Method → String
  | .requests => "エラー"
  | .selenium => "ERROR"

/-- `success_value = '成功' if self.method == 'requests' else 'SUCCESS'`
(source line 202). -/
def successStatus : Method → String
  | .requests => "成功"
  | .selenium => "SUCCESS"

/-- The record created at the start of processing a URL (source lines
114-124); the timestamp is the wall-clock string taken at creation. -/
def initRecord (m : Method) (url ts : String) : Record :=
  { url := url, status := defaultStatus m, title := "", product_id := "",
    price := "", availability := "", color := "", category := "", timestamp := ts }

/-- URL normalisation of `scrape_urls` (source lines 127-128): a URL that
does not start with a scheme is prefixed with the fixed store origin. -/
def normalizeUrl (url : String) : String :=
  if pyStartsWith url "http://" || pyStartsWith url "https://" then url
  else "https://www.asics.com" ++ (if pyStartsWith url "/" then "" else "/") ++ url

/-! ### URL pattern extraction (`_extract_product_info_from_url`) -/

/-- The character class `[A-Z0-9]` of the product-id group. -/
def isUpperDigit (c : Char) : Bool :=
  ('A' ≤ c && c ≤ 'Z') || ('0' ≤ c && c ≤ '9')

/-- The character class `[0-9]` of the colour-code group. -/
def isDigitCh (c : Char) : Bool :=
  '0' ≤ c && c ≤ '9'

/-- The character class `[^/]` of the category segment. -/
def notSlash (c : Char) : Bool :=
  c ≠ '/'

/-- Matching of the common tail `([^/]+)<mid>([A-Z0-9]+)-([0-9]{3})\.html` of
the three URL regexes, anchored at the start of `s`.  Because the literal
`mid` begins with `/`, which `[^/]+` cannot consume, and `-` is outside
`[A-Z0-9]`, the greedy groups of the regex are forced to the maximal runs
taken here, so this function computes exactly the regex groups. -/
def matchSegThen (mid s : List Char) : Option (List Char × List Char × List Char) :=
  let seg := s.takeWhile notSlash
  let s1 := s.dropWhile notSlash
  if seg.isEmpty then none
  else if mid.isPrefixOf s1 then
    let s2 := s1.drop mid.length
    let pid := s2.takeWhile isUpperDigit
    let s3 := s2.dropWhile isUpperDigit
    if pid.isEmpty then none
    else
      match s3 with
      | '-' :: d1 :: d2 :: d3 :: rest =>
        if isDigitCh d1 && isDigitCh d2 && isDigitCh d3 && ".html".toList.isPrefixOf rest
        then some (seg, pid, [d1, d2, d3])
        else none
      | _ => none
  else none

/-- Matching of one full pattern `<lead>([^/]+)<mid>([A-Z0-9]+)-([0-9]{3})\.html`
anchored at the start of `s`. -/
def matchTemplAt (lead mid s : List Char) : Option (List Char × List Char × List Char) :=
  if lead.isPrefixOf s then matchSegThen mid (s.drop lead.length) else none

/-- `re.search`: try the pattern at every start position, leftmost match
first.  (The pattern starts with a nonempty literal, so it can never match
the empty suffix.) -/
def searchTempl (lead mid : List Char) : List Char → Option (List Char × List Char × List Char)
  | [] => none
  | c :: cs =>
    match matchTemplAt lead mid (c :: cs) with
    | some g => some g
    | none => searchTempl lead mid cs

/-- Leading literal of patterns 1 and 2: `/jp/ja-jp/`. -/
def lead1 : List Char := "/jp/ja-jp/".toList

/-- Leading literal of pattern 3: `/jp/ja-jp/sale/`. -/
def leadSale : List Char := "/jp/ja-jp/sale/".toList

/-- Middle literal of patterns 1 and 3: `/p/`. -/
def midP : List Char := "/p/".toList

/-- Middle literal of pattern 2: `/products/`. -/
def midProducts : List Char := "/products/".toList

/-- `_extract_product_info_from_url` (source lines 324-346): the three
patterns are tried in order and the first match supplies category,
product id and colour code; no match yields the empty info dict. -/
def extractProductInfoFromUrl (url : String) : Option (String × String × String) :=
  match searchTempl lead1 midP url.toList with
  | some (c, p, k) => some (String.mk c, String.mk p, String.mk k)
  | none =>
    match searchTempl lead1 midProducts url.toList with
    | some (c, p, k) => some (String.mk c, String.mk p, String.mk k)
    | none =>
      match searchTempl leadSale midP url.toList with
      | some (c, p, k) => some (String.mk c, String.mk p, String.mk k)
      | none => none

/-! ### Page model and `_scrape_with_requests` -/

/-- A parsed JSON-LD object, restricted to the keys the code reads:
`@type` and the `offers` substructure with its `price` and `availability`
(defaulting to `''` when the keys are missing, as `.get(key, '')` does). -/
structure LdItem where
  typ : Option String
  offers : Option (String × String)
deriving DecidableEq

/-- The first `<script type="application/ld+json">` block of a page, as
`json.loads` sees it: malformed JSON (swallowed as `JSONDecodeError`), a
single object, or a list of objects. -/
inductive LdScript where
  | malformed
  | single (item : LdItem)
  | array (items : List LdItem)
deriving DecidableEq

/-- The parts of a fetched page that `_scrape_with_requests` and
`_extract_product_details` read: the `<title>` text, the text of the first
element matching the price and availability CSS selector lists, and the
first JSON-LD script block. -/
structure Soup where
  title : Option String
  priceElem : Option String
  availElem : Option String
  jsonLd : Option LdScript
deriving DecidableEq

/-- The availability URI substitution chain (source lines 377-379):
three sequential `str.replace` calls. -/
def mapAvailability (s : String) : String :=
  pyReplace (pyReplace (pyReplace s
    "http://schema.org/InStock" "在庫あり")
    "http://schema.org/OutOfStock" "在庫切れ")
    "http://schema.org/LimitedAvailability" "在庫残りわずか"

/-- Availability part of the JSON-LD fallback (source lines 373-380):
`offers.get('availability', '')`, mapped through the URI substitutions and
stored only when nonempty (`if availability:`). -/
def ldOffersAvail (offers : Option (String × String)) (r3 : Record) : Record :=
  match offers with
  | some (_, a) => if a ≠ "" then { r3 with availability := mapAvailability a } else r3
  | none => r3

/-- Price part of the JSON-LD fallback (source lines 370-371):
`offers.get('price', '')`. -/
def ldOffersPrice (offers : Option (String × String)) (r2 : Record) : Record :=
  match offers with
  | some (p, _) => { r2 with price := p }
  | none => r2

/-- The JSON-LD `Product` fallback of `_extract_product_details` (source
lines 369-380): fill price and availability from `offers` when the CSS
selectors left them empty. -/
def ldFallback (item : LdItem) (r2 : Record) : Record :=
  if item.typ == some "Product" then
    let r3 := if r2.price = "" then ldOffersPrice item.offers r2 else r2
    let r4 := if r3.availability = "" then ldOffersAvail item.offers r3 else r3
    r4
  else r2

/-- `_extract_product_details` (source lines 348-384): CSS price and
availability first, then the JSON-LD `Product` fallback; a malformed
JSON-LD block is swallowed (`JSONDecodeError` → `pass`). -/
def extractProductDetails (soup : Soup) (r : Record) : Record :=
  let r1 := match soup.priceElem with
    | some t => { r with price := pyStrip t }
    | none => r
  let r2 := match soup.availElem with
    | some t => { r1 with availability := pyStrip t }
    | none => r1
  match soup.jsonLd with
  | some (.single it) => ldFallback it r2
  | some (.array its) =>
    ldFallback ((its.find? (fun it => it.typ == some "Product")).getD ⟨none, none⟩) r2
  | some .malformed => r2
  | none => r2

/-- The title text taken from a fetched page (source line 294):
`soup.title.text.strip()` or the placeholder when there is no title. -/
def pageTitleText (soup : Soup) : String :=
  match soup.title with
  | some t => pyStrip t
  | none => "タイトルが見つかりません"

/-- The page-existence heuristic (source line 301):
`'404' in result['title'].lower() or 'ページが見つかりません' in result['title']`. -/
def titleNotFound (t : String) : Bool :=
  containsSub (pyLower t).toList "404".toList || containsSub t.toList "ページが見つかりません".toList

/-- What one `session.get` does, seen from `_scrape_with_requests`: a
response with an HTTP status and a parsed body, or a raised exception. -/
inductive NetEvent where
  | resp (status : Nat) (soup : Soup)
  | timeoutExc (msg : String)
  | connExc (msg : String)
  | otherExc (msg : String)
deriving DecidableEq

/-- `_scrape_with_requests` (source lines 276-322).  `raise_for_status`
raises `HTTPError` exactly for statuses in `[400, 600)`; that error is
handled inside the function, and the final `except Exception` catches
every other exception (including `Timeout` and `ConnectionError`, which
are `Exception` subclasses), so this function never raises: each attempt
of the requests pipeline returns normally. -/
def scrapeWithRequests (ev : NetEvent) (r : Record) : Record :=
  match ev with
  | .resp st soup =>
    if 400 ≤ st ∧ st < 600 then
      if st = 404 then { r with status := "ページなし", title := "ページが見つかりません（404）" }
      else if st = 403 then { r with status := "アクセス拒否", title := "アクセスが拒否されました（403）" }
      else { r with status := "エラー", title := "HTTPエラー: " ++ toString st }
    else
      let r1 := { r with title := pageTitleText soup, status := "成功" }
      let r2 := extractProductDetails soup r1
      let r3 :=
        if titleNotFound r2.title then
          { r2 with status := "ページなし", title := "ページが見つかりません" }
        else r2
      if r3.price = "" ∧ r3.availability = "" then
        { r3 with status := "商品情報なし", title := "商品情報が見つかりません" }
      else r3
  | .timeoutExc m => { r with status := "エラー", title := "予期しないエラー: " ++ m }
  | .connExc m => { r with status := "エラー", title := "予期しないエラー: " ++ m }
  | .otherExc m => { r with status := "エラー", title := "予期しないエラー: " ++ m }

/-! ### The per-URL retry loop of `scrape_urls` -/

/-- The exception classes distinguished by the handlers of the retry loop
(source lines 152-185), in their catch order: `Timeout`, `ConnectionError`,
`HTTPError`/`WebDriverException` (with the optional
`e.response.status_code`), `RequestException`/`TimeoutException`, and the
catch-all `Exception`. -/
inductive Exc where
  | timeout
  | connError
  | httpWd (code : Option Nat) (msg : String)
  | reqExc (msg : String)
  | otherExc (msg : String)
deriving DecidableEq

/-- The outcome of one scrape call: what `_scrape_with_selenium` /
`_scrape_with_requests` does to the record as a function of the attempt
index — return normally with the updated record, or raise. -/
abbrev AttemptFun := Nat → Record → Except Exc Record

/-- The title text each exception handler writes (source lines 152-185);
`rc` is the retry count after its increment. -/
def excTitle (e : Exc) (rc mx : Nat) : String :=
  match e with
  | .timeout => "タイムアウト - 再試行 " ++ toString rc ++ "/" ++ toString mx
  | .connError => "接続エラー - 再試行 " ++ toString rc ++ "/" ++ toString mx
  | .httpWd (some c) _ =>
    if c = 404 then "ページが見つかりません（404）"
    else if c = 403 then "アクセスが拒否されました（403）"
    else "HTTPエラー: " ++ toString c ++ " - 再試行 " ++ toString rc ++ "/" ++ toString mx
  | .httpWd none m => "ブラウザエラー: " ++ m ++ " - 再試行 " ++ toString rc ++ "/" ++ toString mx
  | .reqExc m => "リクエストエラー: " ++ m ++ " - 再試行 " ++ toString rc ++ "/" ++ toString mx
  | .otherExc m => "予期しないエラー: " ++ m ++ " - 再試行 " ++ toString rc ++ "/" ++ toString mx

/-- Result of the retry loop for one URL: the record, how many attempts
(executions of the `try` block) were made, the window of every jittered
sleep in order, and the final `success` flag. -/
structure LoopOut where
  record : Record
  attempts : Nat
  sleeps : List (ℚ × ℚ)
  success : Bool
deriving DecidableEq

/-- The window of the jittered sleep before every attempt (source line
142): `random.uniform(delay_range[0], delay_range[1])`. -/
def normalWindow (cfg : Config) : ℚ × ℚ := (cfg.delayLo, cfg.delayHi)

/-- The window of the extra sleep on HTTP 403 (source line 172):
`random.uniform(5.0, 10.0)` — a fixed literal, independent of the
configured delay range. -/
def forbiddenWindow : ℚ × ℚ := (5, 10)

/-- The retry loop `while not success and retry_count < max_retries`
(source lines 136-186).  `fuel = max_retries - retry_count` (so the guard
`retry_count < max_retries` is exactly `fuel > 0`), `k` is the attempt
index fed to the oracle and `rc` the current retry count.  Every handler
except the 404 branch increments the retry count and continues; 404
breaks; a normal return sets `success` and leaves the loop. -/
def loopGo (cfg : Config) (att : AttemptFun) : Nat → Nat → Nat → Record → LoopOut
  | 0, _, _, r => { record := r, attempts := 0, sleeps := [], success := false }
  | fuel + 1, k, rc, r =>
    match att k r with
    | .ok r' => { record := r', attempts := 1, sleeps := [normalWindow cfg], success := true }
    | .error e =>
      let r' := { r with title := excTitle e (rc + 1) cfg.maxRetries }
      match e with
      | .httpWd (some c) _ =>
        if c = 404 then
          { record := r', attempts := 1, sleeps := [normalWindow cfg], success := false }
        else if c = 403 then
          let out := loopGo cfg att fuel (k + 1) (rc + 1) r'
          { record := out.record, attempts := out.attempts + 1,
            sleeps := normalWindow cfg :: forbiddenWindow :: out.sleeps,
            success := out.success }
        else
          let out := loopGo cfg att fuel (k + 1) (rc + 1) r'
          { record := out.record, attempts := out.attempts + 1,
            sleeps := normalWindow cfg :: out.sleeps, success := out.success }
      | _ =>
        let out := loopGo cfg att fuel (k + 1) (rc + 1) r'
        { record := out.record, attempts := out.attempts + 1,
          sleeps := normalWindow cfg :: out.sleeps, success := out.success }

/-- The retry loop started with `success = False`, `retry_count = 0`
(source lines 136-137). -/
def runLoop (cfg : Config) (att : AttemptFun) (r : Record) : LoopOut :=
  loopGo cfg att cfg.maxRetries 0 0 r

/-- Outcome of processing one URL: its record, the attempt count and sleep
trace, and the URL actually given to the fetcher. -/
structure ProcOut where
  record : Record
  attempts : Nat
  sleeps : List (ℚ × ℚ)
  fetchUrl : String
deriving DecidableEq

/-- Processing of a single URL inside `scrape_urls` (source lines
113-186): create the record (which keeps the raw URL), normalise the URL,
fill category / product id / colour from the normalised URL when a
pattern matches (`if product_info:`), then run the retry loop. -/
def processUrl (cfg : Config) (m : Method) (att : AttemptFun) (ts url : String) : ProcOut :=
  let r0 := initRecord m url ts
  let u := normalizeUrl url
  let r1 :=
    match extractProductInfoFromUrl u with
    | some (c, p, k) => { r0 with category := c, product_id := p, color := k }
    | none => r0
  let out := runLoop cfg att r1
  { record := out.record, attempts := out.attempts, sleeps := out.sleeps, fetchUrl := u }

/-! ### The run over the whole URL list -/

/-- The instance state `scrape_urls` touches: the scraping method and the
`self.results` accumulator (created once in `__init__`, never cleared). -/
structure ScraperState where
  method : Method
  results : List Record
deriving DecidableEq

/-- The final tally printed by `scrape_urls` (source lines 202-207): the
success count is taken over the whole accumulated table, the denominator
is the length of the current `urls` argument. -/
structure Summary where
  successCount : Nat
  totalUrls : Nat
deriving DecidableEq

/-- Result of one `scrape_urls` call: the new instance state, the returned
table (`pd.DataFrame(self.results)`) and the tally. -/
structure RunResult where
  state : ScraperState
  df : List Record
  summary : Summary
deriving DecidableEq

/-- The `for url in urls` loop (source lines 113-188): each URL's record
is appended to the accumulator in input order. -/
def scrapeLoop (cfg : Config) (m : Method) (attFam : Nat → AttemptFun) (ts : Nat → String) :
    Nat → List Record → List String → List Record
  | _, acc, [] => acc
  | i, acc, u :: rest =>
    scrapeLoop cfg m attFam ts (i + 1)
      (acc ++ [(processUrl cfg m (attFam i) (ts i) u).record]) rest

/-- `scrape_urls` (source lines 98-209): run the per-URL loop over the
list, convert the whole accumulated `self.results` to the returned table,
and tally successes against the length of the current `urls` list.
`attFam i` is the attempt oracle for the i-th URL and `ts i` its
timestamp. -/
def scrapeUrls (cfg : Config) (attFam : Nat → AttemptFun) (ts : Nat → String)
    (st : ScraperState) (urls : List String) : RunResult :=
  let results' := scrapeLoop cfg st.method attFam ts 0 st.results urls
  { state := { method := st.method, results := results' },
    df := results',
    summary :=
      { successCount := results'.countP (fun r => r.status == successStatus st.method),
        totalUrls := urls.length } }

/-- The requests-method attempt oracle (source lines 147-148): the scrape
call is `_scrape_with_requests`, which never raises, applied to the
network's event for that attempt. -/
def requestsAtt (evs : Nat → NetEvent) : AttemptFun :=
  fun k r => .ok (scrapeWithRequests (evs k) r)

/-! ### File loading and the spec's idea of URL resolution -/

/-- `load_urls_from_file` (source lines 453-466), with the file given as
its list of raw lines: strip each line, skip blank lines and lines
starting with `#`. -/
def loadUrlsFromFile (lines : List String) : List String :=
  lines.filterMap (fun line =>
    let url := pyStrip line
    if url ≠ "" ∧ ¬ pyStartsWith url "#" then some url else none)

/-- Whether an exception is the 404 case of the `HTTPError` /
`WebDriverException` handler (the only branch that breaks out of the
retry loop, source lines 166-168). -/
def is404 : Exc → Bool
  | .httpWd (some c) _ => c == 404
  | _ => false

/-- Whether an exception is the 403 case of the `HTTPError` /
`WebDriverException` handler (the branch with the extra sleep, source
lines 169-173). -/
def is403 : Exc → Bool
  | .httpWd (some c) _ => c == 403
  | _ => false

/-- What it means for a URL to match one of the three path templates
`<lead>([^/]+)<mid>([A-Z0-9]+)-([0-9]{3})\.html` somewhere in the string
(the language of the regex, independent of the search procedure):
some decomposition exhibits the literals, a nonempty slash-free category
segment, a nonempty `[A-Z0-9]` product id and three digits followed by
`.html`. -/
def MatchesTemplate (lead mid s : List Char) : Prop :=
  ∃ pre seg pid d1 d2 d3 post,
    s = pre ++ (lead ++ (seg ++ (mid ++ (pid ++
        '-' :: d1 :: d2 :: d3 :: (".html".toList ++ post))))) ∧
    seg ≠ [] ∧ (∀ c ∈ seg, c ≠ '/') ∧
    pid ≠ [] ∧ (∀ c ∈ pid, isUpperDigit c = true) ∧
    isDigitCh d1 = true ∧ isDigitCh d2 = true ∧ isDigitCh d3 = true

/-- A URL matching one of the three known path templates (standard
product page, category-listing product page, sale-section product
page). -/
def MatchesAnyTemplate (s : List Char) : Prop :=
  MatchesTemplate lead1 midP s ∨ MatchesTemplate lead1 midProducts s ∨
    MatchesTemplate leadSale midP s

/-- Modelled from the spec: "the relative path is resolved to an absolute
URL under the configured origin before fetching" — the claimed resolution
against a run-configured origin (the `--base-url` setting).  Written from
the spec's words, to be compared with `normalizeUrl`, which the source
hard-codes to `https://www.asics.com`. -/
def specResolvedUrl (origin url : String) : String :=
  if pyStartsWith url "http://" || pyStartsWith url "https://" then url
  else origin ++ (if pyStartsWith url "/" then "" else "/") ++ url

/-- Number of ASCII colons in a character list.  Each schema.org URI
contains exactly one colon while the three human labels contain none, so
the availability substitution chain can only ever remove colons — the
monovariant used to show that a string containing a URI never survives
the chain unchanged. -/
def countColon (l : List Char) : Nat :=
  l.countP (fun c => c = ':')

/-! ### Step lemmas for the retry loop -/

theorem loopGo_ok {cfg : Config} {att : AttemptFun} {k rc : Nat} {r r' : Record}
    (h : att k r = .ok r') (fuel : Nat) :
    loopGo cfg att (fuel + 1) k rc r =
      { record := r', attempts := 1, sleeps := [normalWindow cfg], success := true } := by
  simp [loopGo, h]

theorem loopGo_404 {cfg : Config} {att : AttemptFun} {k rc : Nat} {r : Record} {msg : String}
    (h : att k r = .error (.httpWd (some 404) msg)) (fuel : Nat) :
    loopGo cfg att (fuel + 1) k rc r =
      { record := { r with title := "ページが見つかりません（404）" }, attempts := 1,
        sleeps := [normalWindow cfg], success := false } := by
  simp [loopGo, h, excTitle]

theorem loopGo_error_step {cfg : Config} {att : AttemptFun} {k rc : Nat} {r : Record} {e : Exc}
    (h : att k r = .error e) (h404 : is404 e = false) (fuel : Nat) :
    loopGo cfg att (fuel + 1) k rc r =
      (let r' := { r with title := excTitle e (rc + 1) cfg.maxRetries }
       let out := loopGo cfg att fuel (k + 1) (rc + 1) r'
       { record := out.record, attempts := out.attempts + 1,
         sleeps := normalWindow cfg ::
           (if is403 e then forbiddenWindow :: out.sleeps else out.sleeps),
         success := out.success }) := by
  cases e with
  | httpWd code msg =>
    cases code with
    | none => simp [loopGo, h, is403]
    | some c =>
      have h404' : c ≠ 404 := by simpa [is404] using h404
      by_cases h403 : c = 403
      · subst h403; simp [loopGo, h, is403]
      · simp [loopGo, h, is403, h404', h403]
  | timeout => simp [loopGo, h, is403]
  | connError => simp [loopGo, h, is403]
  | reqExc m => simp [loopGo, h, is403]
  | otherExc m => simp [loopGo, h, is403]

/-! ### Behaviour of the loop when every attempt fails -/

theorem loopGo_all_fail (cfg : Config) {att : AttemptFun} {n : Nat}
    (hatt : ∀ i r', i < n → ∃ e, att i r' = .error e ∧ is404 e = false) :
    ∀ fuel k rc r, k + fuel ≤ n →
      (loopGo cfg att fuel k rc r).attempts = fuel ∧
      (loopGo cfg att fuel k rc r).success = false ∧
      (loopGo cfg att fuel k rc r).record.status = r.status ∧
      (loopGo cfg att fuel k rc r).record.url = r.url := by
  intro fuel
  induction fuel with
  | zero => intro k rc r _; simp [loopGo]
  | succ f ih =>
    intro k rc r hk
    obtain ⟨e, he, h404⟩ := hatt k r (by omega)
    rw [loopGo_error_step he h404]
    have := ih (k + 1) (rc + 1) { r with title := excTitle e (rc + 1) cfg.maxRetries } (by omega)
    simpa using this

theorem loopGo_all_fail_title (cfg : Config) {att : AttemptFun} {es : Nat → Exc}
    (hatt : ∀ i r', att i r' = .error (es i)) (hre : ∀ i, is404 (es i) = false) :
    ∀ fuel k rc r, 1 ≤ fuel →
      (loopGo cfg att fuel k rc r).record.title =
        excTitle (es (k + fuel - 1)) (rc + fuel) cfg.maxRetries := by
  intro fuel
  induction fuel with
  | zero => intro k rc r h1; omega
  | succ f ih =>
    intro k rc r _
    rw [loopGo_error_step (hatt k r) (hre k)]
    cases f with
    | zero => simp [loopGo]
    | succ f' =>
      have := ih (k + 1) (rc + 1) { r with title := excTitle (es k) (rc + 1) cfg.maxRetries }
        (by omega)
      simp only []
      rw [this]
      congr 1
      · congr 1
        omega
      · omega

/-! ### URL preservation through the loop -/

theorem loopGo_url {cfg : Config} {att : AttemptFun}
    (h : ∀ k r r', att k r = .ok r' → r'.url = r.url) :
    ∀ fuel k rc r, (loopGo cfg att fuel k rc r).record.url = r.url := by
  intro fuel
  induction fuel with
  | zero => intro k rc r; simp [loopGo]
  | succ f ih =>
    intro k rc r
    cases hat : att k r with
    | ok r' => rw [loopGo_ok hat]; exact h k r r' hat
    | error e =>
      cases h404 : is404 e with
      | false =>
        rw [loopGo_error_step hat h404]
        simpa using ih (k + 1) (rc + 1) _
      | true =>
        cases e with
        | httpWd code msg =>
          cases code with
          | none => simp [is404] at h404
          | some c =>
            have hc : c = 404 := by simpa [is404] using h404
            subst hc
            rw [loopGo_404 hat]
        | timeout => simp [is404] at h404
        | connError => simp [is404] at h404
        | reqExc m => simp [is404] at h404
        | otherExc m => simp [is404] at h404

theorem processUrl_url {cfg : Config} {m : Method} {att : AttemptFun} {ts url : String}
    (h : ∀ k r r', att k r = .ok r' → r'.url = r.url) :
    (processUrl cfg m att ts url).record.url = url := by
  simp only [processUrl, runLoop]
  cases hx : extractProductInfoFromUrl (normalizeUrl url) with
  | none => simp [hx, loopGo_url h, initRecord]
  | some g =>
    obtain ⟨c, p, k⟩ := g
    simp [hx, loopGo_url h, initRecord]

/-! ### The outer loop over the URL list -/

theorem scrapeLoop_acc (cfg : Config) (m : Method) (attFam : Nat → AttemptFun)
    (ts : Nat → String) :
    ∀ (urls : List String) (i : Nat) (acc : List Record),
      scrapeLoop cfg m attFam ts i acc urls = acc ++ scrapeLoop cfg m attFam ts i [] urls := by
  intro urls
  induction urls with
  | nil => intro i acc; simp [scrapeLoop]
  | cons u rest ih =>
    intro i acc
    simp only [scrapeLoop]
    rw [ih (i + 1), ih (i + 1) ([] ++ _)]
    simp

theorem scrapeLoop_length (cfg : Config) (m : Method) (attFam : Nat → AttemptFun)
    (ts : Nat → String) :
    ∀ (urls : List String) (i : Nat) (acc : List Record),
      (scrapeLoop cfg m attFam ts i acc urls).length = acc.length + urls.length := by
  intro urls
  induction urls with
  | nil => intro i acc; simp [scrapeLoop]
  | cons u rest ih =>
    intro i acc
    simp only [scrapeLoop]
    rw [ih (i + 1)]
    simp
    omega

theorem scrapeLoop_map_url (cfg : Config) (m : Method) (attFam : Nat → AttemptFun)
    (ts : Nat → String)
    (h : ∀ i k r r', attFam i k r = .ok r' → r'.url = r.url) :
    ∀ (urls : List String) (i : Nat) (acc : List Record),
      (scrapeLoop cfg m attFam ts i acc urls).map Record.url = acc.map Record.url ++ urls := by
  intro urls
  induction urls with
  | nil => intro i acc; simp [scrapeLoop]
  | cons u rest ih =>
    intro i acc
    simp only [scrapeLoop]
    rw [ih (i + 1)]
    simp [processUrl_url (h i)]

theorem processUrl_all_fail (cfg : Config) (m : Method) (att : AttemptFun) (ts url : String)
    (N : Nat) (hN : cfg.maxRetries = N)
    (hfail : ∀ i r', i < N → ∃ e, att i r' = .error e ∧ is404 e = false) :
    (processUrl cfg m att ts url).attempts = N ∧
    (processUrl cfg m att ts url).record.status = defaultStatus m := by
  subst hN
  have key := loopGo_all_fail cfg hfail cfg.maxRetries 0 0
  simp only [processUrl, runLoop]
  cases hx : extractProductInfoFromUrl (normalizeUrl url) with
  | none =>
    have h := key (initRecord m url ts) (by omega)
    exact ⟨h.1, by rw [h.2.2.1]; rfl⟩
  | some g =>
    obtain ⟨c, p, k⟩ := g
    have h := key { initRecord m url ts with category := c, product_id := p, color := k }
      (by omega)
    exact ⟨h.1, by rw [h.2.2.1]; rfl⟩

/-! ### Field preservation through the detail extractor -/

theorem ldOffersPrice_title (off : Option (String × String)) (r : Record) :
    (ldOffersPrice off r).title = r.title := by
  cases off with
  | none => rfl
  | some pr => obtain ⟨p, a⟩ := pr; rfl

theorem ldOffersPrice_status (off : Option (String × String)) (r : Record) :
    (ldOffersPrice off r).status = r.status := by
  cases off with
  | none => rfl
  | some pr => obtain ⟨p, a⟩ := pr; rfl

theorem ldOffersPrice_availability (off : Option (String × String)) (r : Record) :
    (ldOffersPrice off r).availability = r.availability := by
  cases off with
  | none => rfl
  | some pr => obtain ⟨p, a⟩ := pr; rfl

theorem ldOffersAvail_title (off : Option (String × String)) (r : Record) :
    (ldOffersAvail off r).title = r.title := by
  cases off with
  | none => rfl
  | some pr =>
    obtain ⟨p, a⟩ := pr
    simp only [ldOffersAvail]
    split <;> rfl

theorem ldOffersAvail_status (off : Option (String × String)) (r : Record) :
    (ldOffersAvail off r).status = r.status := by
  cases off with
  | none => rfl
  | some pr =>
    obtain ⟨p, a⟩ := pr
    simp only [ldOffersAvail]
    split <;> rfl

theorem ldFallback_title (it : LdItem) (r : Record) :
    (ldFallback it r).title = r.title := by
  simp only [ldFallback]
  split
  · rw [show ∀ r3 : Record, (if r3.availability = "" then ldOffersAvail it.offers r3 else r3).title
        = r3.title from fun r3 => by split <;> simp [ldOffersAvail_title]]
    split <;> simp [ldOffersPrice_title]
  · rfl

theorem ldFallback_status (it : LdItem) (r : Record) :
    (ldFallback it r).status = r.status := by
  simp only [ldFallback]
  split
  · rw [show ∀ r3 : Record, (if r3.availability = "" then ldOffersAvail it.offers r3 else r3).status
        = r3.status from fun r3 => by split <;> simp [ldOffersAvail_status]]
    split <;> simp [ldOffersPrice_status]
  · rfl

theorem extractProductDetails_title (soup : Soup) (r : Record) :
    (extractProductDetails soup r).title = r.title := by
  simp only [extractProductDetails]
  cases soup.jsonLd with
  | none =>
    cases soup.priceElem <;> cases soup.availElem <;> simp
  | some ld =>
    cases ld <;> cases soup.priceElem <;> cases soup.availElem <;>
      simp [ldFallback_title]

theorem extractProductDetails_status (soup : Soup) (r : Record) :
    (extractProductDetails soup r).status = r.status := by
  simp only [extractProductDetails]
  cases soup.jsonLd with
  | none =>
    cases soup.priceElem <;> cases soup.availElem <;> simp
  | some ld =>
    cases ld <;> cases soup.priceElem <;> cases soup.availElem <;>
      simp [ldFallback_status]

/-- The post-hoc classification performed by `_scrape_with_requests` on a
response that `raise_for_status` lets through, written as one case tree:
extract details into the success record, then override the status to
`ページなし` when the title matches the not-found heuristic, and to
`商品情報なし` when neither price nor availability was found (the second
override wins over the first). -/
theorem swr_classify (soup : Soup) (r : Record) (st : Nat) (hst : ¬ (400 ≤ st ∧ st < 600)) :
    scrapeWithRequests (.resp st soup) r =
      (let r2 := extractProductDetails soup
        { r with title := pageTitleText soup, status := "成功" }
       if titleNotFound (pageTitleText soup) then
         if r2.price = "" ∧ r2.availability = "" then
           { r2 with status := "商品情報なし", title := "商品情報が見つかりません" }
         else { r2 with status := "ページなし", title := "ページが見つかりません" }
       else
         if r2.price = "" ∧ r2.availability = "" then
           { r2 with status := "商品情報なし", title := "商品情報が見つかりません" }
         else r2) := by
  simp only [scrapeWithRequests]
  rw [if_neg hst]
  rw [extractProductDetails_title]
  by_cases h3 : titleNotFound (pageTitleText soup) = true <;> simp [h3]

/-- The per-URL processing is a projection of the retry loop run on some
initial record (whose exact product fields depend on the URL pattern
match), with the fetch URL always the normalised one. -/
theorem processUrl_proj (cfg : Config) (m : Method) (att : AttemptFun) (ts url : String) :
    ∃ r1 : Record,
      r1.status = defaultStatus m ∧ r1.price = "" ∧ r1.availability = "" ∧
      processUrl cfg m att ts url =
        { record := (runLoop cfg att r1).record, attempts := (runLoop cfg att r1).attempts,
          sleeps := (runLoop cfg att r1).sleeps, fetchUrl := normalizeUrl url } := by
  simp only [processUrl]
  cases hx : extractProductInfoFromUrl (normalizeUrl url) with
  | none => exact ⟨initRecord m url ts, rfl, rfl, rfl, rfl⟩
  | some g =>
    obtain ⟨c, p, k⟩ := g
    exact ⟨{ initRecord m url ts with category := c, product_id := p, color := k },
      rfl, rfl, rfl, rfl⟩

/-! ### Replacement lemmas for the availability mapping -/

theorem replaceFuel_no_occur (pat rep : List Char) :
    ∀ (fuel : Nat) (s : List Char), containsSub s pat = false → replaceFuel pat rep fuel s = s := by
  intro fuel
  induction fuel with
  | zero => intro s _; rfl
  | succ f ih =>
    intro s h
    cases s with
    | nil => rfl
    | cons c cs =>
      simp only [containsSub, Bool.or_eq_false_iff] at h
      simp only [replaceFuel, h.1, Bool.and_false, if_false]
      rw [ih cs h.2]
      simp

theorem pyReplace_no_occur (s pat rep : String) (h : containsSub s.toList pat.toList = false) :
    pyReplace s pat rep = s := by
  simp only [pyReplace]
  rw [replaceFuel_no_occur _ _ _ _ h]
  cases s
  rfl

theorem isPrefixOf_exists {l₁ l₂ : List Char} (h : l₁.isPrefixOf l₂ = true) :
    ∃ t, l₂ = l₁ ++ t := by
  obtain ⟨t, ht⟩ := List.isPrefixOf_iff_prefix.mp h
  exact ⟨t, ht.symm⟩

theorem isPrefixOf_append_self (l t : List Char) : l.isPrefixOf (l ++ t) = true :=
  List.isPrefixOf_iff_prefix.mpr (List.prefix_append l t)

theorem toList_pyReplace (s pat rep : String) :
    (pyReplace s pat rep).toList = replaceFuel pat.toList rep.toList s.toList.length s.toList :=
  rfl

theorem countColon_replaceFuel_le (pat rep : List Char) (hc : countColon rep ≤ countColon pat) :
    ∀ (fuel : Nat) (s : List Char), countColon (replaceFuel pat rep fuel s) ≤ countColon s := by
  intro fuel
  induction fuel with
  | zero => intro s; exact Nat.le_refl _
  | succ f ih =>
    intro s
    cases s with
    | nil => simp [replaceFuel]
    | cons c cs =>
      by_cases hp : (!pat.isEmpty && pat.isPrefixOf (c :: cs)) = true
      · simp only [replaceFuel]
        rw [if_pos hp]
        obtain ⟨t, ht⟩ := isPrefixOf_exists ((Bool.and_eq_true _ _).mp hp).2
        rw [ht, List.drop_left]
        have h2 := ih t
        simp only [countColon, List.countP_append] at *
        omega
      · simp only [replaceFuel]
        rw [if_neg hp]
        have h2 := ih cs
        simp only [countColon, List.countP_cons] at *
        omega

theorem countColon_replaceFuel_lt (pat rep : List Char) (hpat : pat ≠ [])
    (hc : countColon rep < countColon pat) :
    ∀ (fuel : Nat) (s : List Char), s.length ≤ fuel → containsSub s pat = true →
      countColon (replaceFuel pat rep fuel s) < countColon s := by
  intro fuel
  induction fuel with
  | zero =>
    intro s hs hocc
    have hnil : s = [] := List.length_eq_zero.mp (Nat.le_zero.mp hs)
    subst hnil
    simp only [containsSub, List.isEmpty_iff] at hocc
    exact absurd hocc hpat
  | succ f ih =>
    intro s hs hocc
    cases s with
    | nil =>
      simp only [containsSub, List.isEmpty_iff] at hocc
      exact absurd hocc hpat
    | cons c cs =>
      simp only [containsSub, Bool.or_eq_true] at hocc
      by_cases hp : pat.isPrefixOf (c :: cs) = true
      · have hcond : (!pat.isEmpty && pat.isPrefixOf (c :: cs)) = true := by
          simp [hp, List.isEmpty_iff, hpat]
        simp only [replaceFuel]
        rw [if_pos hcond]
        obtain ⟨t, ht⟩ := isPrefixOf_exists hp
        rw [ht, List.drop_left]
        have hle := countColon_replaceFuel_le pat rep (Nat.le_of_lt hc) f t
        simp only [countColon, List.countP_append] at *
        omega
      · have hocc2 : containsSub cs pat = true := by
          rcases hocc with h | h
          · exact absurd h hp
          · exact h
        have hcond : ¬ ((!pat.isEmpty && pat.isPrefixOf (c :: cs)) = true) := by
          simp only [Bool.and_eq_true, not_and]
          intro _
          exact hp
        simp only [replaceFuel]
        rw [if_neg hcond]
        have hlen : cs.length ≤ f := by
          simp only [List.length_cons] at hs
          omega
        have h2 := ih cs hlen hocc2
        simp only [countColon, List.countP_cons] at *
        omega

theorem countColon_pyReplace_le (s pat rep : String)
    (hc : countColon rep.toList ≤ countColon pat.toList) :
    countColon (pyReplace s pat rep).toList ≤ countColon s.toList := by
  rw [toList_pyReplace]
  exact countColon_replaceFuel_le _ _ hc _ _

theorem countColon_pyReplace_lt (s pat rep : String) (hpat : pat.toList ≠ [])
    (hc : countColon rep.toList < countColon pat.toList)
    (hocc : containsSub s.toList pat.toList = true) :
    countColon (pyReplace s pat rep).toList < countColon s.toList := by
  rw [toList_pyReplace]
  exact countColon_replaceFuel_lt _ _ hpat hc _ _ (Nat.le_refl _) hocc

/-- A string in which one of the three schema.org URIs occurs never
survives the substitution chain unchanged: the chain strictly lowers its
colon count. -/
theorem mapAvailability_ne (s : String)
    (h : containsSub s.toList "http://schema.org/InStock".toList = true ∨
         containsSub s.toList "http://schema.org/OutOfStock".toList = true ∨
         containsSub s.toList "http://schema.org/LimitedAvailability".toList = true) :
    mapAvailability s ≠ s := by
  intro heq
  have hcount : countColon (mapAvailability s).toList < countColon s.toList := by
    by_cases h1 : containsSub s.toList "http://schema.org/InStock".toList = true
    · calc countColon (mapAvailability s).toList
          ≤ countColon (pyReplace (pyReplace s
              "http://schema.org/InStock" "在庫あり")
              "http://schema.org/OutOfStock" "在庫切れ").toList :=
            countColon_pyReplace_le _ _ _ (by decide)
        _ ≤ countColon (pyReplace s "http://schema.org/InStock" "在庫あり").toList :=
            countColon_pyReplace_le _ _ _ (by decide)
        _ < countColon s.toList := countColon_pyReplace_lt _ _ _ (by decide) (by decide) h1
    · have e1 : pyReplace s "http://schema.org/InStock" "在庫あり" = s :=
        pyReplace_no_occur s _ _ (by simpa using h1)
      by_cases h2 : containsSub s.toList "http://schema.org/OutOfStock".toList = true
      · calc countColon (mapAvailability s).toList
            ≤ countColon (pyReplace (pyReplace s
                "http://schema.org/InStock" "在庫あり")
                "http://schema.org/OutOfStock" "在庫切れ").toList :=
              countColon_pyReplace_le _ _ _ (by decide)
          _ < countColon s.toList := by
              rw [e1]
              exact countColon_pyReplace_lt _ _ _ (by decide) (by decide) h2
      · have e2 : pyReplace s "http://schema.org/OutOfStock" "在庫切れ" = s :=
          pyReplace_no_occur s _ _ (by simpa using h2)
        have h3 : containsSub s.toList "http://schema.org/LimitedAvailability".toList = true := by
          rcases h with h | h | h
          · exact absurd h h1
          · exact absurd h h2
          · exact h
        have : mapAvailability s = pyReplace s "http://schema.org/LimitedAvailability"
            "在庫残りわずか" := by
          rw [mapAvailability, e1, e2]
        rw [this]
        exact countColon_pyReplace_lt _ _ _ (by decide) (by decide) h3
  rw [heq] at hcount
  exact Nat.lt_irrefl _ hcount

/-! ### Claim theorems -/

/-- C1: for every run of `scrape_urls` over an input URL list, the run
appends exactly one Record per input URL, in input order, to the result
table, regardless of how each URL's fetch attempts succeed or fail (the
oracle is universally quantified); the hypothesis records that the scrape
calls never write the record's `url` field, which is what both
`_scrape_with_requests` and `_scrape_with_selenium` do. -/
theorem claim_C1 (cfg : Config) (attFam : Nat → AttemptFun) (ts : Nat → String)
    (st : ScraperState) (urls : List String)
    (h : ∀ i k r r', attFam i k r = .ok r' → r'.url = r.url) :
    ((scrapeUrls cfg attFam ts st urls).df).map Record.url =
      st.results.map Record.url ++ urls := by
  simp only [scrapeUrls]
  exact scrapeLoop_map_url cfg st.method attFam ts h urls 0 st.results

theorem claim_C1_witness :
    ((scrapeUrls ⟨2, 5, 30, 3⟩ (fun _ _ r => .ok r) (fun _ => "t")
        ⟨.requests, []⟩ ["https://a.example/x", "/b"]).df).map Record.url =
      ([] : List Record).map Record.url ++ ["https://a.example/x", "/b"] :=
  claim_C1 _ _ _ _ _ (fun _ _ r r' h => by cases h; rfl)

/-- C2: when the fetch raises a timeout or connection failure on every one
of the first N attempts, with N the configured max_retries, the loop makes
exactly N attempts (not N+1) and the record keeps its default non-success
status. -/
theorem claim_C2 (cfg : Config) (m : Method) (att : AttemptFun) (ts url : String) (N : Nat)
    (hN : cfg.maxRetries = N)
    (hatt : ∀ i r', i < N → att i r' = .error .timeout ∨ att i r' = .error .connError) :
    (processUrl cfg m att ts url).attempts = N ∧
    (processUrl cfg m att ts url).record.status = defaultStatus m ∧
    defaultStatus m ≠ successStatus m := by
  have hfail : ∀ i r', i < N → ∃ e, att i r' = .error e ∧ is404 e = false := by
    intro i r' hi
    rcases hatt i r' hi with h | h
    · exact ⟨.timeout, h, rfl⟩
    · exact ⟨.connError, h, rfl⟩
  have h := processUrl_all_fail cfg m att ts url N hN hfail
  refine ⟨h.1, h.2, ?_⟩
  cases m <;> decide

theorem claim_C2_witness :
    (processUrl ⟨2, 5, 30, 2⟩ .requests (fun _ _ => .error .timeout) "t" "u").attempts = 2 ∧
    (processUrl ⟨2, 5, 30, 2⟩ .requests (fun _ _ => .error .timeout) "t" "u").record.status =
      defaultStatus .requests ∧
    defaultStatus .requests ≠ successStatus .requests :=
  claim_C2 _ _ _ _ _ _ rfl (fun _ _ _ => Or.inl rfl)

/-- C5 (amended): an attempt failing with HTTP 403 makes the loop sleep
the normal configured window and then one more jittered delay drawn from
the fixed window (5.0s, 10.0s) — a hard-coded literal, not run-level
configuration — before the attempt is counted as a retry and the loop
continues. -/
theorem claim_C5 (cfg : Config) (att : AttemptFun) (fuel k rc : Nat) (r : Record) (msg : String)
    (h : att k r = .error (.httpWd (some 403) msg)) :
    (loopGo cfg att (fuel + 1) k rc r).sleeps =
      normalWindow cfg :: forbiddenWindow ::
        (loopGo cfg att fuel (k + 1) (rc + 1)
          { r with title := "アクセスが拒否されました（403）" }).sleeps ∧
    (loopGo cfg att (fuel + 1) k rc r).attempts =
      (loopGo cfg att fuel (k + 1) (rc + 1)
        { r with title := "アクセスが拒否されました（403）" }).attempts + 1 ∧
    forbiddenWindow = (5, 10) := by
  rw [loopGo_error_step h rfl]
  exact ⟨by simp [is403, excTitle], by simp [is403, excTitle], rfl⟩

theorem claim_C5_witness :
    (loopGo ⟨2, 5, 30, 1⟩ (fun _ _ => .error (.httpWd (some 403) "")) 1 0 0
        (initRecord .requests "u" "t")).sleeps =
      normalWindow ⟨2, 5, 30, 1⟩ :: forbiddenWindow ::
        (loopGo ⟨2, 5, 30, 1⟩ (fun _ _ => .error (.httpWd (some 403) "")) 0 1 1
          { initRecord .requests "u" "t" with title := "アクセスが拒否されました（403）" }).sleeps ∧
    (loopGo ⟨2, 5, 30, 1⟩ (fun _ _ => .error (.httpWd (some 403) "")) 1 0 0
        (initRecord .requests "u" "t")).attempts =
      (loopGo ⟨2, 5, 30, 1⟩ (fun _ _ => .error (.httpWd (some 403) "")) 0 1 1
        { initRecord .requests "u" "t" with title := "アクセスが拒否されました（403）" }).attempts + 1 ∧
    forbiddenWindow = (5, 10) :=
  claim_C5 _ _ 0 0 0 _ "" rfl

/-- C5 as stated is false: the 403-triggered delay window is the literal
(5, 10) whatever the configured delay range is — here two runs with delay
ranges (20, 30) and (1, 2) both draw the extra 403 sleep from (5, 10),
which for the first run is not longer than the normal window. -/
theorem claim_C5_counterexample :
    (runLoop ⟨20, 30, 30, 1⟩ (fun _ _ => .error (.httpWd (some 403) ""))
        (initRecord .requests "u" "t")).sleeps = [(20, 30), (5, 10)] ∧
    (runLoop ⟨1, 2, 30, 1⟩ (fun _ _ => .error (.httpWd (some 403) ""))
        (initRecord .requests "u" "t")).sleeps = [(1, 2), (5, 10)] ∧
    ¬ ((20 : ℚ) ≤ 5) := by
  decide

/-- C9: no failure aborts the run — the result list always grows by
exactly one record per input URL whatever each attempt does — and when all
attempts of a URL raise (with no 404 break), the loop ends unsuccessfully
with the last error's handler text recorded in the record's title while
the record's url is untouched. -/
theorem claim_C9 :
    (∀ (cfg : Config) (attFam : Nat → AttemptFun) (ts : Nat → String)
        (st : ScraperState) (urls : List String),
        ((scrapeUrls cfg attFam ts st urls).state.results).length =
          st.results.length + urls.length) ∧
    (∀ (cfg : Config) (att : AttemptFun) (r : Record) (es : Nat → Exc) (N : Nat),
        cfg.maxRetries = N → 1 ≤ N →
        (∀ i r', att i r' = .error (es i)) → (∀ i, is404 (es i) = false) →
        (runLoop cfg att r).record.title = excTitle (es (N - 1)) N cfg.maxRetries ∧
        (runLoop cfg att r).success = false ∧
        (runLoop cfg att r).record.url = r.url) := by
  constructor
  · intro cfg attFam ts st urls
    simp only [scrapeUrls]
    exact scrapeLoop_length cfg st.method attFam ts urls 0 st.results
  · intro cfg att r es N hN h1 hatt hre
    subst hN
    have hfail : ∀ i r', i < cfg.maxRetries → ∃ e, att i r' = .error e ∧ is404 e = false :=
      fun i r' _ => ⟨es i, hatt i r', hre i⟩
    have hb := loopGo_all_fail cfg hfail cfg.maxRetries 0 0 r (by omega)
    have ht := loopGo_all_fail_title cfg hatt hre cfg.maxRetries 0 0 r h1
    refine ⟨?_, hb.2.1, hb.2.2.2⟩
    simpa using ht

theorem claim_C9_witness :
    ((scrapeUrls ⟨2, 5, 30, 3⟩ (fun _ _ _ => .error .timeout) (fun _ => "t")
        ⟨.requests, []⟩ ["a", "b"]).state.results).length = 0 + 2 ∧
    (runLoop ⟨2, 5, 30, 2⟩ (fun _ _ => .error (.otherExc "x"))
        (initRecord .requests "u" "t")).record.title =
      excTitle (.otherExc "x") 2 (⟨2, 5, 30, 2⟩ : Config).maxRetries :=
  ⟨claim_C9.1 _ _ _ _ _,
    (claim_C9.2 ⟨2, 5, 30, 2⟩ _ _ (fun _ => .otherExc "x") 2 rfl (by decide)
      (fun _ _ => rfl) (fun _ => rfl)).1⟩

/-- C10: the results accumulator is never cleared — a second
`scrape_urls` call on the same instance returns a table holding the first
call's records followed by one record per URL of the second list, and the
final tally's denominator is only the second list's length while its
success count ranges over the whole accumulated table. -/
theorem claim_C10 (cfg1 cfg2 : Config) (attF1 attF2 : Nat → AttemptFun)
    (ts1 ts2 : Nat → String) (m : Method) (urls1 urls2 : List String) :
    (∃ recs : List Record,
        (scrapeUrls cfg2 attF2 ts2 (scrapeUrls cfg1 attF1 ts1 ⟨m, []⟩ urls1).state urls2).df =
          (scrapeUrls cfg1 attF1 ts1 ⟨m, []⟩ urls1).df ++ recs ∧
        recs.length = urls2.length) ∧
    ((scrapeUrls cfg2 attF2 ts2 (scrapeUrls cfg1 attF1 ts1 ⟨m, []⟩ urls1).state urls2).df).length =
      urls1.length + urls2.length ∧
    (scrapeUrls cfg2 attF2 ts2
        (scrapeUrls cfg1 attF1 ts1 ⟨m, []⟩ urls1).state urls2).summary.totalUrls =
      urls2.length ∧
    (scrapeUrls cfg2 attF2 ts2
        (scrapeUrls cfg1 attF1 ts1 ⟨m, []⟩ urls1).state urls2).summary.successCount =
      ((scrapeUrls cfg2 attF2 ts2
          (scrapeUrls cfg1 attF1 ts1 ⟨m, []⟩ urls1).state urls2).df).countP
        (fun r => r.status == successStatus m) := by
  simp only [scrapeUrls]
  refine ⟨⟨scrapeLoop cfg2 m attF2 ts2 0 [] urls2, ?_, ?_⟩, ?_, by trivial, by trivial⟩
  · exact scrapeLoop_acc cfg2 m attF2 ts2 urls2 0 _
  · simpa using scrapeLoop_length cfg2 m attF2 ts2 urls2 0 []
  · rw [scrapeLoop_length cfg2 m attF2 ts2 urls2 0 _,
      scrapeLoop_length cfg1 m attF1 ts1 urls1 0 []]
    simp

/-- C8 as stated is false on its own scenario: the site-relative path is
resolved against the hard-coded origin `https://www.asics.com`, not
against a configured origin (here the scenario's `https://store.example`),
so the resolution the spec describes and the one the code performs
disagree. -/
theorem claim_C8_counterexample :
    normalizeUrl "/relative/path" = "https://www.asics.com/relative/path" ∧
    specResolvedUrl "https://store.example" "/relative/path" =
      "https://store.example/relative/path" ∧
    normalizeUrl "/relative/path" ≠ specResolvedUrl "https://store.example" "/relative/path" := by
  decide

/-- C8 (amended): loading the scenario file keeps exactly the two URL
lines (comment and blank lines skipped), the run's table gets exactly two
rows, and the relative path is resolved before fetching to an absolute URL
under the fixed origin `https://www.asics.com` (the base-url setting only
feeds test-URL generation, never this resolution). -/
theorem claim_C8 (cfg : Config) (m : Method) (attFam : Nat → AttemptFun) (ts : Nat → String) :
    loadUrlsFromFile
        ["https://store.example/x/p/1011A100-200.html\n", "# comment\n", "\n", "/relative/path"] =
      ["https://store.example/x/p/1011A100-200.html", "/relative/path"] ∧
    ((scrapeUrls cfg attFam ts ⟨m, []⟩
        (loadUrlsFromFile
          ["https://store.example/x/p/1011A100-200.html\n", "# comment\n", "\n",
            "/relative/path"])).df).length = 2 ∧
    (processUrl cfg m (attFam 1) (ts 1) "/relative/path").fetchUrl =
      "https://www.asics.com/relative/path" := by
  have h1 : loadUrlsFromFile
      ["https://store.example/x/p/1011A100-200.html\n", "# comment\n", "\n", "/relative/path"] =
      ["https://store.example/x/p/1011A100-200.html", "/relative/path"] := by decide
  refine ⟨h1, ?_, ?_⟩
  · rw [h1]
    simp only [scrapeUrls]
    rw [scrapeLoop_length cfg m attFam ts _ 0 []]
    rfl
  · rfl

/-- C3 as stated is false: a fetched page whose content matches the
not-found pattern (here a title containing "404") but carries no price and
no availability ends with the no-product-info status, because the
no-product-info override (source lines 306-308) runs after the not-found
override (source lines 300-303). -/
theorem claim_C3_counterexample :
    (processUrl ⟨2, 5, 30, 3⟩ .requests
        (requestsAtt (fun _ => .resp 200 ⟨some "404 Not Found", none, none, none⟩))
        "t" "https://a.example/x").record.status = "商品情報なし" ∧
    titleNotFound (pageTitleText ⟨some "404 Not Found", none, none, none⟩) = true ∧
    ("商品情報なし" : String) ≠ "ページなし" := by
  decide

/-- C3 (amended): an HTTP 404 response in the requests pipeline yields the
not-found status `ページなし` after exactly one attempt, whatever retry
budget remains; a 404 `HTTPError` reaching the outer retry loop stops the
loop after one attempt, recording the 404 message in the title but leaving
the record's default error status; page content matching the not-found
pattern takes exactly one attempt and yields `ページなし` only when a
price or availability was extracted — otherwise the no-product-info
override wins and the status is `商品情報なし`. -/
theorem claim_C3 :
    (∀ (cfg : Config) (evs : Nat → NetEvent) (ts url : String) (soup : Soup) (n : Nat),
        cfg.maxRetries = n + 1 → evs 0 = .resp 404 soup →
        (processUrl cfg .requests (requestsAtt evs) ts url).record.status = "ページなし" ∧
        (processUrl cfg .requests (requestsAtt evs) ts url).attempts = 1) ∧
    (∀ (cfg : Config) (att : AttemptFun) (r : Record) (msg : String) (n : Nat),
        cfg.maxRetries = n + 1 → att 0 r = .error (.httpWd (some 404) msg) →
        (runLoop cfg att r).attempts = 1 ∧ (runLoop cfg att r).success = false ∧
        (runLoop cfg att r).record.status = r.status ∧
        (runLoop cfg att r).record.title = "ページが見つかりません（404）") ∧
    (∀ (cfg : Config) (evs : Nat → NetEvent) (ts url : String) (soup : Soup) (st n : Nat),
        cfg.maxRetries = n + 1 → evs 0 = .resp st soup → st < 400 →
        titleNotFound (pageTitleText soup) = true →
        (processUrl cfg .requests (requestsAtt evs) ts url).attempts = 1 ∧
        ((processUrl cfg .requests (requestsAtt evs) ts url).record.price = "" ∧
            (processUrl cfg .requests (requestsAtt evs) ts url).record.availability = "" →
          (processUrl cfg .requests (requestsAtt evs) ts url).record.status = "商品情報なし") ∧
        ((processUrl cfg .requests (requestsAtt evs) ts url).record.price ≠ "" ∨
            (processUrl cfg .requests (requestsAtt evs) ts url).record.availability ≠ "" →
          (processUrl cfg .requests (requestsAtt evs) ts url).record.status = "ページなし")) := by
  refine ⟨?_, ?_, ?_⟩
  · intro cfg evs ts url soup n hN hev
    obtain ⟨r1, -, -, -, hproc⟩ := processUrl_proj cfg .requests (requestsAtt evs) ts url
    rw [hproc]
    simp only [runLoop, hN]
    have hok : requestsAtt evs 0 r1 = Except.ok (scrapeWithRequests (evs 0) r1) := rfl
    rw [loopGo_ok hok]
    rw [hev]
    simp [scrapeWithRequests]
  · intro cfg att r msg n hN hatt
    simp only [runLoop, hN]
    rw [loopGo_404 hatt]
    exact ⟨rfl, rfl, rfl, rfl⟩
  · intro cfg evs ts url soup st n hN hev hst hnf
    obtain ⟨r1, -, -, -, hproc⟩ := processUrl_proj cfg .requests (requestsAtt evs) ts url
    rw [hproc]
    simp only [runLoop, hN]
    have hok : requestsAtt evs 0 r1 = Except.ok (scrapeWithRequests (evs 0) r1) := rfl
    rw [loopGo_ok hok]
    rw [hev]
    rw [swr_classify soup r1 st (by omega)]
    refine ⟨rfl, ?_, ?_⟩ <;>
      simp only [hnf, if_true] <;>
      by_cases h4 : (extractProductDetails soup
          { r1 with title := pageTitleText soup, status := "成功" }).price = "" ∧
          (extractProductDetails soup
            { r1 with title := pageTitleText soup, status := "成功" }).availability = "" <;>
        simp [h4]

theorem claim_C3_witness :
    (processUrl ⟨2, 5, 30, 3⟩ .requests
        (requestsAtt (fun _ => .resp 404 ⟨some "x", none, none, none⟩)) "t"
        "https://a.example/x").record.status = "ページなし" ∧
    (processUrl ⟨2, 5, 30, 3⟩ .requests
        (requestsAtt (fun _ => .resp 404 ⟨some "x", none, none, none⟩)) "t"
        "https://a.example/x").attempts = 1 :=
  claim_C3.1 ⟨2, 5, 30, 3⟩ _ "t" "https://a.example/x" ⟨some "x", none, none, none⟩ 2 rfl rfl

/-- C4 as stated is false: a successfully fetched page whose extracted
title matches the not-found pattern does not keep the no-page status when
neither price nor availability was extracted — the no-product-info
override replaces it. -/
theorem claim_C4_counterexample :
    (scrapeWithRequests (.resp 200 ⟨some "ページが見つかりません", none, none, none⟩)
        (initRecord .requests "u" "t")).status = "商品情報なし" ∧
    titleNotFound (pageTitleText ⟨some "ページが見つかりません", none, none, none⟩) = true ∧
    ("商品情報なし" : String) ≠ "ページなし" := by
  decide

/-- C4 (amended): on a successfully fetched page the classification first
sets `ページなし` when the extracted title matches the not-found pattern,
then overrides the status to `商品情報なし` whenever neither price nor
availability was extracted — so a not-found-titled page keeps `ページなし`
exactly when some price or availability was found, and a normal page keeps
`成功` under the same condition. -/
theorem claim_C4 (soup : Soup) (r : Record) (st : Nat) (hst : st < 400) :
    (titleNotFound (pageTitleText soup) = true →
      (scrapeWithRequests (.resp st soup) r).status =
        (if (scrapeWithRequests (.resp st soup) r).price = "" ∧
            (scrapeWithRequests (.resp st soup) r).availability = ""
         then "商品情報なし" else "ページなし")) ∧
    (titleNotFound (pageTitleText soup) = false →
      (scrapeWithRequests (.resp st soup) r).status =
        (if (scrapeWithRequests (.resp st soup) r).price = "" ∧
            (scrapeWithRequests (.resp st soup) r).availability = ""
         then "商品情報なし" else "成功")) := by
  rw [swr_classify soup r st (by omega)]
  constructor <;> intro h3 <;> simp only [h3, if_true, Bool.false_eq_true, if_false] <;>
    by_cases h4 : (extractProductDetails soup
        { r with title := pageTitleText soup, status := "成功" }).price = "" ∧
        (extractProductDetails soup
          { r with title := pageTitleText soup, status := "成功" }).availability = "" <;>
      simp [h4, extractProductDetails_status]

theorem claim_C4_witness :
    (scrapeWithRequests (.resp 200 ⟨some "商品ページ", some " ¥9900 ", none, none⟩)
        (initRecord .requests "u" "t")).status =
      (if (scrapeWithRequests (.resp 200 ⟨some "商品ページ", some " ¥9900 ", none, none⟩)
            (initRecord .requests "u" "t")).price = "" ∧
          (scrapeWithRequests (.resp 200 ⟨some "商品ページ", some " ¥9900 ", none, none⟩)
            (initRecord .requests "u" "t")).availability = ""
       then "商品情報なし" else "成功") :=
  (claim_C4 _ _ 200 (by decide)).2 (by decide)

/-- C6 as stated is false: the availability mapping is a substring
replacement, so a string that merely contains a recognised schema.org URI
(and is not itself one of the three URIs) is still rewritten instead of
passing through unchanged. -/
theorem claim_C6_counterexample :
    ("x http://schema.org/InStock" : String) ≠ "http://schema.org/InStock" ∧
    ("x http://schema.org/InStock" : String) ≠ "http://schema.org/OutOfStock" ∧
    ("x http://schema.org/InStock" : String) ≠ "http://schema.org/LimitedAvailability" ∧
    mapAvailability "x http://schema.org/InStock" ≠ "x http://schema.org/InStock" := by
  decide

/-- C6 (amended): each of the three recognised schema.org URIs is mapped
to exactly its human label; an availability string is stored unchanged
exactly when none of the three URIs occurs in it as a substring (a string
containing a URI is always rewritten, since each URI carries a colon that
the substitution chain removes and never reintroduces); and the value
stored in the record by the JSON-LD fallback is exactly this mapping of
the offers availability. -/
theorem claim_C6 :
    (mapAvailability "http://schema.org/InStock" = "在庫あり" ∧
     mapAvailability "http://schema.org/OutOfStock" = "在庫切れ" ∧
     mapAvailability "http://schema.org/LimitedAvailability" = "在庫残りわずか") ∧
    (∀ s : String,
        mapAvailability s = s ↔
          containsSub s.toList "http://schema.org/InStock".toList = false ∧
          containsSub s.toList "http://schema.org/OutOfStock".toList = false ∧
          containsSub s.toList "http://schema.org/LimitedAvailability".toList = false) ∧
    (∀ (r : Record) (p a : String), a ≠ "" → r.availability = "" →
        (ldFallback ⟨some "Product", some (p, a)⟩ r).availability = mapAvailability a) := by
  refine ⟨by decide, ?_, ?_⟩
  · intro s
    constructor
    · intro heq
      refine ⟨?_, ?_, ?_⟩
      · by_contra hx
        rw [Bool.not_eq_false] at hx
        exact mapAvailability_ne s (Or.inl hx) heq
      · by_contra hx
        rw [Bool.not_eq_false] at hx
        exact mapAvailability_ne s (Or.inr (Or.inl hx)) heq
      · by_contra hx
        rw [Bool.not_eq_false] at hx
        exact mapAvailability_ne s (Or.inr (Or.inr hx)) heq
    · rintro ⟨h1, h2, h3⟩
      simp only [mapAvailability]
      rw [pyReplace_no_occur s _ _ h1, pyReplace_no_occur s _ _ h2, pyReplace_no_occur s _ _ h3]
  · intro r p a ha hr
    have h3 : (if r.price = "" then ldOffersPrice (some (p, a)) r else r).availability = "" := by
      split
      · rw [ldOffersPrice_availability]; exact hr
      · exact hr
    simp only [ldFallback]
    rw [if_pos (by decide)]
    simp only [h3, if_pos rfl]
    simp [ldOffersAvail, ha]

/-! ### Soundness and completeness of the URL pattern search -/

theorem matchSegThen_sound {mid s seg pid ds : List Char}
    (h : matchSegThen mid s = some (seg, pid, ds)) :
    ∃ d1 d2 d3 post, ds = [d1, d2, d3] ∧
      s = seg ++ (mid ++ (pid ++ '-' :: d1 :: d2 :: d3 :: (".html".toList ++ post))) ∧
      seg ≠ [] ∧ (∀ c ∈ seg, c ≠ '/') ∧ pid ≠ [] ∧ (∀ c ∈ pid, isUpperDigit c = true) ∧
      isDigitCh d1 = true ∧ isDigitCh d2 = true ∧ isDigitCh d3 = true := by
  simp only [matchSegThen] at h
  split at h
  · exact Option.noConfusion h
  next hseg =>
    split at h
    case isFalse => exact Option.noConfusion h
    next hmid =>
      split at h
      · exact Option.noConfusion h
      next hpid =>
        split at h
        next d1 d2 d3 rest heq =>
          split at h
          case isFalse => exact Option.noConfusion h
          next hcond =>
            injection h with h'
            injection h' with hseg' h''
            injection h'' with hpid' hds
            subst hseg'; subst hpid'; subst hds
            simp only [Bool.and_eq_true] at hcond
            obtain ⟨⟨⟨h1, h2⟩, h3⟩, hrest⟩ := hcond
            obtain ⟨post, hpost⟩ := isPrefixOf_exists hrest
            obtain ⟨t, ht⟩ := isPrefixOf_exists hmid
            have hXt : ((s.dropWhile notSlash).drop mid.length) = t := by
              rw [ht, List.drop_left]
            have hX : ((s.dropWhile notSlash).drop mid.length).takeWhile isUpperDigit ++
                ('-' :: d1 :: d2 :: d3 :: rest) =
                (s.dropWhile notSlash).drop mid.length := by
              conv_rhs => rw [← List.takeWhile_append_dropWhile isUpperDigit
                ((s.dropWhile notSlash).drop mid.length)]
              rw [heq]
            have hX' : List.takeWhile isUpperDigit t ++ '-' :: d1 :: d2 :: d3 :: rest = t := by
              rw [← hXt]
              exact hX
            refine ⟨d1, d2, d3, post, rfl, ?_, ?_, ?_, ?_, ?_, h1, h2, h3⟩
            · conv_lhs => rw [← List.takeWhile_append_dropWhile notSlash s]
              rw [ht]
              congr 1
              congr 1
              rw [List.drop_left, ← hpost]
              exact hX'.symm
            · intro hn
              rw [hn] at hseg
              exact hseg rfl
            · intro c hc
              have := List.mem_takeWhile_imp hc
              simpa [notSlash] using this
            · intro hn
              rw [hn] at hpid
              exact hpid rfl
            · intro c hc
              exact List.mem_takeWhile_imp hc
        · exact Option.noConfusion h

theorem matchSegThen_complete (m' seg pid : List Char) (d1 d2 d3 : Char) (post : List Char)
    (hseg : seg ≠ []) (hsegc : ∀ c ∈ seg, c ≠ '/')
    (hpid : pid ≠ []) (hpidc : ∀ c ∈ pid, isUpperDigit c = true)
    (h1 : isDigitCh d1 = true) (h2 : isDigitCh d2 = true) (h3 : isDigitCh d3 = true) :
    matchSegThen ('/' :: m')
      (seg ++ (('/' :: m') ++ (pid ++ '-' :: d1 :: d2 :: d3 :: (".html".toList ++ post)))) =
      some (seg, pid, [d1, d2, d3]) := by
  have hsegp : ∀ c ∈ seg, notSlash c = true := by
    intro c hc; simpa [notSlash] using hsegc c hc
  have htw : (seg ++ (('/' :: m') ++
      (pid ++ '-' :: d1 :: d2 :: d3 :: (".html".toList ++ post)))).takeWhile notSlash
      = seg := by
    rw [List.takeWhile_append_of_pos hsegp, List.cons_append,
      List.takeWhile_cons_of_neg (by decide), List.append_nil]
  have hdw : (seg ++ (('/' :: m') ++
      (pid ++ '-' :: d1 :: d2 :: d3 :: (".html".toList ++ post)))).dropWhile notSlash
      = ('/' :: m') ++ (pid ++ '-' :: d1 :: d2 :: d3 :: (".html".toList ++ post)) := by
    rw [List.dropWhile_append_of_pos hsegp, List.cons_append,
      List.dropWhile_cons_of_neg (by decide), ← List.cons_append]
  simp only [matchSegThen, htw, hdw]
  rw [if_neg (by simpa using hseg)]
  rw [if_pos (isPrefixOf_append_self _ _)]
  rw [List.drop_left]
  rw [List.takeWhile_append_of_pos hpidc, List.dropWhile_append_of_pos hpidc]
  rw [List.takeWhile_cons_of_neg (by decide), List.dropWhile_cons_of_neg (by decide),
    List.append_nil]
  rw [if_neg (by simpa using hpid)]
  simp [h1, h2, h3, isPrefixOf_append_self]

theorem matchTemplAt_sound {lead mid s : List Char}
    {g : List Char × List Char × List Char} (h : matchTemplAt lead mid s = some g) :
    ∃ rest, s = lead ++ rest ∧ matchSegThen mid rest = some g := by
  simp only [matchTemplAt] at h
  split at h
  next hl =>
    obtain ⟨t, ht⟩ := isPrefixOf_exists hl
    refine ⟨t, ht, ?_⟩
    rw [ht, List.drop_left] at h
    exact h
  · exact Option.noConfusion h

theorem matchTemplAt_complete (lead mid rest : List Char)
    (g : List Char × List Char × List Char) (h : matchSegThen mid rest = some g) :
    matchTemplAt lead mid (lead ++ rest) = some g := by
  simp only [matchTemplAt]
  rw [if_pos (isPrefixOf_append_self _ _), List.drop_left]
  exact h

theorem searchTempl_sound {lead mid : List Char} :
    ∀ {s : List Char} {g : List Char × List Char × List Char},
      searchTempl lead mid s = some g →
      ∃ pre suf, s = pre ++ suf ∧ matchTemplAt lead mid suf = some g := by
  intro s
  induction s with
  | nil => intro g h; simp [searchTempl] at h
  | cons c cs ih =>
    intro g h
    simp only [searchTempl] at h
    cases hm : matchTemplAt lead mid (c :: cs) with
    | some g' =>
      rw [hm] at h
      injection h with h'
      exact ⟨[], c :: cs, rfl, by rw [hm, h']⟩
    | none =>
      rw [hm] at h
      obtain ⟨pre, suf, hs, hmt⟩ := ih h
      exact ⟨c :: pre, suf, by rw [List.cons_append, hs], hmt⟩

theorem searchTempl_complete {lead mid : List Char} (hlead : lead ≠ []) :
    ∀ (pre suf : List Char) (g : List Char × List Char × List Char),
      matchTemplAt lead mid suf = some g →
      ∃ g', searchTempl lead mid (pre ++ suf) = some g' := by
  intro pre
  induction pre with
  | nil =>
    intro suf g h
    cases suf with
    | nil =>
      exfalso
      simp only [matchTemplAt] at h
      cases lead with
      | nil => exact hlead rfl
      | cons x l => simp [List.isPrefixOf] at h
    | cons c cs =>
      refine ⟨g, ?_⟩
      simp only [List.nil_append, searchTempl, h]
  | cons x pre' ih =>
    intro suf g h
    rw [List.cons_append]
    cases hm : matchTemplAt lead mid (x :: (pre' ++ suf)) with
    | some g'' => exact ⟨g'', by simp only [searchTempl, hm]⟩
    | none =>
      obtain ⟨g', hg⟩ := ih suf g h
      exact ⟨g', by simp only [searchTempl, hm]; exact hg⟩

theorem searchTempl_matches {lead mid s : List Char} {g : List Char × List Char × List Char}
    (h : searchTempl lead mid s = some g) : MatchesTemplate lead mid s := by
  obtain ⟨pre, suf, hs, hmt⟩ := searchTempl_sound h
  obtain ⟨rest, hsuf, hms⟩ := matchTemplAt_sound hmt
  obtain ⟨seg, pid, ds⟩ := g
  obtain ⟨d1, d2, d3, post, hds, hrest, hseg, hsegc, hpid, hpidc, h1, h2, h3⟩ :=
    matchSegThen_sound hms
  exact ⟨pre, seg, pid, d1, d2, d3, post, by rw [hs, hsuf, hrest], hseg, hsegc, hpid, hpidc,
    h1, h2, h3⟩

theorem searchTempl_groups {lead mid s seg pid ds : List Char}
    (h : searchTempl lead mid s = some (seg, pid, ds)) :
    seg ≠ [] ∧ pid ≠ [] ∧ ds.length = 3 ∧ ∀ c ∈ ds, isDigitCh c = true := by
  obtain ⟨pre, suf, hs, hmt⟩ := searchTempl_sound h
  obtain ⟨rest, hsuf, hms⟩ := matchTemplAt_sound hmt
  obtain ⟨d1, d2, d3, post, hds, hrest, hseg, hsegc, hpid, hpidc, h1, h2, h3⟩ :=
    matchSegThen_sound hms
  subst hds
  refine ⟨hseg, hpid, rfl, ?_⟩
  intro c hc
  simp only [List.mem_cons, List.not_mem_nil, or_false] at hc
  rcases hc with rfl | rfl | rfl <;> assumption

theorem matches_isSome {lead mid m' s : List Char} (hlead : lead ≠ [])
    (hmid : mid = '/' :: m') (h : MatchesTemplate lead mid s) :
    ∃ g, searchTempl lead mid s = some g := by
  subst hmid
  obtain ⟨pre, seg, pid, d1, d2, d3, post, hs, hseg, hsegc, hpid, hpidc, h1, h2, h3⟩ := h
  subst hs
  exact searchTempl_complete hlead pre _ _
    (matchTemplAt_complete lead _ _ _
      (matchSegThen_complete m' seg pid d1 d2 d3 post hseg hsegc hpid hpidc h1 h2 h3))

theorem string_mk_ne_empty {l : List Char} (h : l ≠ []) : String.mk l ≠ "" := by
  intro he
  exact h (congrArg String.data he)

/-- C7: `_extract_product_info_from_url` returns nonempty category,
product id and a three-digit colour code exactly on URLs matching one of
the three known path templates; on all other URLs it returns the empty
info (and, being a total function, raises no error). -/
theorem claim_C7 (url : String) :
    match extractProductInfoFromUrl url with
    | some (c, p, k) =>
        MatchesAnyTemplate url.toList ∧ c ≠ "" ∧ p ≠ "" ∧
        k.toList.length = 3 ∧ ∀ ch ∈ k.toList, isDigitCh ch = true
    | none => ¬ MatchesAnyTemplate url.toList := by
  simp only [extractProductInfoFromUrl]
  cases h1 : searchTempl lead1 midP url.toList with
  | some g =>
    obtain ⟨seg, pid, ds⟩ := g
    obtain ⟨hseg, hpid, hlen, hdig⟩ := searchTempl_groups h1
    exact ⟨Or.inl (searchTempl_matches h1), string_mk_ne_empty hseg,
      string_mk_ne_empty hpid, hlen, hdig⟩
  | none =>
    cases h2 : searchTempl lead1 midProducts url.toList with
    | some g =>
      obtain ⟨seg, pid, ds⟩ := g
      obtain ⟨hseg, hpid, hlen, hdig⟩ := searchTempl_groups h2
      exact ⟨Or.inr (Or.inl (searchTempl_matches h2)), string_mk_ne_empty hseg,
        string_mk_ne_empty hpid, hlen, hdig⟩
    | none =>
      cases h3 : searchTempl leadSale midP url.toList with
      | some g =>
        obtain ⟨seg, pid, ds⟩ := g
        obtain ⟨hseg, hpid, hlen, hdig⟩ := searchTempl_groups h3
        exact ⟨Or.inr (Or.inr (searchTempl_matches h3)), string_mk_ne_empty hseg,
          string_mk_ne_empty hpid, hlen, hdig⟩
      | none =>
        intro hM
        rcases hM with hM | hM | hM
        · obtain ⟨g, hg⟩ := matches_isSome (by decide) (by decide : midP = '/' :: ['p', '/']) hM
          rw [h1] at hg
          exact Option.noConfusion hg
        · obtain ⟨g, hg⟩ := matches_isSome (by decide)
            (by decide : midProducts = '/' :: ['p', 'r', 'o', 'd', 'u', 'c', 't', 's', '/']) hM
          rw [h2] at hg
          exact Option.noConfusion hg
        · obtain ⟨g, hg⟩ := matches_isSome (by decide) (by decide : midP = '/' :: ['p', '/']) hM
          rw [h3] at hg
          exact Option.noConfusion hg

theorem claim_C7_witness :
    MatchesAnyTemplate "https://www.asics.com/jp/ja-jp/running/p/1011A100-200.html".toList := by
  have heq : extractProductInfoFromUrl
      "https://www.asics.com/jp/ja-jp/running/p/1011A100-200.html" =
      some ("running", "1011A100", "200") := by decide
  have h := claim_C7 "https://www.asics.com/jp/ja-jp/running/p/1011A100-200.html"
  rw [heq] at h
  exact h.1

theorem claim_C6_witness :
    mapAvailability "available" = "available" ∧
    (ldFallback ⟨some "Product", some ("", "in stock")⟩
        (initRecord .requests "u" "t")).availability = mapAvailability "in stock" :=
  ⟨(claim_C6.2.1 "available").mpr ⟨by decide, by decide, by decide⟩,
   claim_C6.2.2 (initRecord .requests "u" "t") "" "in stock" (by decide) rfl⟩

end Asics
